import Mathlib

/-!
Verification of the backtesting core of an options-trading toolkit
(`src/backtesting/backtest_engine.py`).

The engine is embedded shallowly:
* prices, volumes, premiums and capital are modelled as rationals
  (the Python source uses floats; the claims under study are exact
  arithmetic identities, so ℚ is the faithful idealisation);
* calendar dates are natural numbers counting days from a Monday, so
  `d % 7` is Python's `date.weekday()` (`0` = Monday, `5`/`6` = weekend);
* the two day-by-day `while` loops (`backtest_odte_breakout`,
  `backtest_earnings_straddle`) become structural recursion over the
  list of dates in range, with the weekend test inside the step, exactly
  as in the source;
* Python's `int(x)` truncation toward zero is `pyInt`;
* `float('inf')` (the profit factor of a run with zero total losses) is
  modelled by `Option ℚ` with `none` standing for `+∞`.

Fields such as `annual_return`, `volatility` and `sharpe_ratio` involve
real-valued exponents and square roots and are outside the rational
model; they are omitted from the embedded metrics record.
-/

namespace BacktestEngine

/-- Python's `int(q)` truncation toward zero on a rational. -/
def pyInt (q : ℚ) : ℤ := if 0 ≤ q then ⌊q⌋ else ⌈q⌉

/-- One intraday (or daily) price bar, as consumed by the engine:
`high`, `low`, `close`, `volume`. -/
structure Bar where
  high : ℚ
  low : ℚ
  close : ℚ
  volume : ℚ
deriving DecidableEq, Repr

/-- Breakout signal direction. -/
inductive Signal where
  | CALL : Signal
  | PUT : Signal
deriving DecidableEq, Repr

/-- Exit status recorded on a breakout trade
(`"TP" if exit_price >= tp else "SL" if exit_price <= sl else "EXPIRED"`). -/
inductive TradeStatus where
  | TP : TradeStatus
  | SL : TradeStatus
  | EXPIRED : TradeStatus
deriving DecidableEq, Repr

/-- Configuration of `backtest_odte_breakout` (the keys of its
`default_config`).  The Python `config` argument is a dict merged over
the defaults, so callers may also pass extra keys; those are kept out of
this record because the engine never reads any of them. -/
structure BreakoutConfig where
  tickers : List String
  risk_per_trade : ℚ
  volume_multiplier : ℚ
  tp_multiplier : ℚ
  sl_multiplier : ℚ
deriving DecidableEq, Repr

/-- The trade dict appended to `self.trades` by the breakout backtest.
(The `entry_time`/`exit_time` timestamps are bookkeeping only and are
not modelled.) -/
structure Trade where
  date : ℕ
  ticker : String
  signal : Signal
  entry_price : ℚ
  premium : ℚ
  quantity : ℤ
  exit_price : ℚ
  pnl : ℚ
  status : TradeStatus
deriving DecidableEq, Repr

/-- Breakout detection against the opening-range bar `ir` (the day's
first bar): `CALL` when `close > initial_high and volume >
initial_volume * volume_multiplier`, `elif` `close < initial_low` with
the same volume test then `PUT`. -/
def breakoutSignal (cfg : BreakoutConfig) (ir b : Bar) : Option Signal :=
  if b.close > ir.high ∧ b.volume > ir.volume * cfg.volume_multiplier then
    some Signal.CALL
  else if b.close < ir.low ∧ b.volume > ir.volume * cfg.volume_multiplier then
    some Signal.PUT
  else
    none

/-- `premium = close * 0.015` — the literal `0.015` is hard-coded at the
signal site. -/
def tradePremium (close : ℚ) : ℚ := close * (15 / 1000)

/-- `qty = max(1, int(config['risk_per_trade'] / premium))`. -/
def tradeQty (cfg : BreakoutConfig) (premium : ℚ) : ℤ :=
  max 1 (pyInt (cfg.risk_per_trade / premium))

/-- `sl = premium * config['sl_multiplier']`. -/
def tradeSL (cfg : BreakoutConfig) (premium : ℚ) : ℚ :=
  premium * cfg.sl_multiplier

/-- `tp = premium * config['tp_multiplier']`. -/
def tradeTP (cfg : BreakoutConfig) (premium : ℚ) : ℚ :=
  premium * cfg.tp_multiplier

/-- Simplified option repricing on a later bar:
`premium * (1 + (future_close - close) / close)` for a CALL and
`premium * (1 + (close - future_close) / close)` for a PUT. -/
def optionPrice (sig : Signal) (premium close futureClose : ℚ) : ℚ :=
  match sig with
  | Signal.CALL => premium * (1 + (futureClose - close) / close)
  | Signal.PUT => premium * (1 + (close - futureClose) / close)

/-- The exit loop over the bars remaining after the signal bar, returning
`(result, exit_price)`.  On each bar: stop-loss first (`option_price <=
sl`), then take-profit (`option_price >= tp`); on the day's last bar the
trade expires at the repriced value.  When no bars remain at all
(`remaining_data.empty`), `result = -premium * qty` while `exit_price`
keeps its initial value `premium`. -/
def scanExit (sig : Signal) (premium close sl tp qty : ℚ) :
    List Bar → ℚ × ℚ
  | [] => (-premium * qty, premium)
  | fb :: rest =>
    let op := optionPrice sig premium close fb.close
    if op ≤ sl then ((sl - premium) * qty, sl)
    else if tp ≤ op then ((tp - premium) * qty, tp)
    else
      match rest with
      | [] => ((op - premium) * qty, op)
      | _ :: _ => scanExit sig premium close sl tp qty rest

/-- Build the trade recorded when signal `sig` fires on bar `b` (close
price `b.close`), with `remaining` the bars of the day after `b`. -/
def mkBreakoutTrade (cfg : BreakoutConfig) (date : ℕ) (ticker : String)
    (sig : Signal) (b : Bar) (remaining : List Bar) : Trade :=
  let premium := tradePremium b.close
  let qty := tradeQty cfg premium
  let sl := tradeSL cfg premium
  let tp := tradeTP cfg premium
  let res := scanExit sig premium b.close sl tp (qty : ℚ) remaining
  { date := date
    ticker := ticker
    signal := sig
    entry_price := b.close
    premium := premium
    quantity := qty
    exit_price := res.2
    pnl := res.1
    status :=
      if tp ≤ res.2 then TradeStatus.TP
      else if res.2 ≤ sl then TradeStatus.SL
      else TradeStatus.EXPIRED }

/-- Scan the bars after the opening-range bar for the day's first
breakout signal; the `break` after a recorded trade means later signals
of the day are never examined. -/
def firstSignalTrade (cfg : BreakoutConfig) (date : ℕ) (ticker : String)
    (ir : Bar) : List Bar → Option Trade
  | [] => none
  | b :: rest =>
    match breakoutSignal cfg ir b with
    | some sig => some (mkBreakoutTrade cfg date ticker sig b rest)
    | none => firstSignalTrade cfg date ticker ir rest

/-- One ticker on one day: an empty `day_data` (missing ticker or no
bars that day) is skipped; otherwise the first bar is the opening range
and the rest are scanned for a signal. -/
def processTickerDay (cfg : BreakoutConfig) (date : ℕ) (ticker : String) :
    List Bar → Option Trade
  | [] => none
  | ir :: rest => firstSignalTrade cfg date ticker ir rest

/-- All trades the breakout backtest records on one day (at most one per
ticker, in ticker order). -/
def breakoutDayTrades (cfg : BreakoutConfig) (data : String → ℕ → List Bar)
    (d : ℕ) : List Trade :=
  cfg.tickers.filterMap (fun t => processTickerDay cfg d t (data t d))

/-- The mutable run state of `backtest_odte_breakout`: `current_capital`,
`self.equity_curve`, `self.trades`. -/
structure BreakoutState where
  capital : ℚ
  equity : List ℚ
  trades : List Trade
deriving DecidableEq, Repr

/-- One (non-weekend) day of the breakout backtest: record the day's
trades, add `daily_pnl` to the capital and append the new capital to the
equity curve. -/
def breakoutDay (cfg : BreakoutConfig) (data : String → ℕ → List Bar)
    (d : ℕ) (st : BreakoutState) : BreakoutState :=
  let newTrades := breakoutDayTrades cfg data d
  let dailyPnl := (newTrades.map Trade.pnl).sum
  { capital := st.capital + dailyPnl
    equity := st.equity ++ [st.capital + dailyPnl]
    trades := st.trades ++ newTrades }

/-- The day-by-day `while current_date <= end_date` loop shared by both
backtests: weekend dates (`weekday() >= 5`, i.e. `d % 7 ≥ 5`) are
skipped, every other date is processed by `step`. -/
def runLoop {σ : Type} (step : ℕ → σ → σ) : List ℕ → σ → σ
  | [], st => st
  | d :: ds, st => runLoop step ds (if 5 ≤ d % 7 then st else step d st)

/-- The dates visited by the loop: `startDate, startDate+1, …, endDate`. -/
def dateRange (startDate endDate : ℕ) : List ℕ :=
  List.range' startDate (endDate + 1 - startDate)

/-- The simulated trading days of a run: the non-weekend dates in range. -/
def tradingDays (startDate endDate : ℕ) : List ℕ :=
  (dateRange startDate endDate).filter (fun d => d % 7 < 5)

/-- `backtest_odte_breakout`: starting from
`equity_curve = [initial_capital]` and an empty trade list, process every
date in range. -/
def backtest_odte_breakout (cfg : BreakoutConfig)
    (data : String → ℕ → List Bar) (startDate endDate : ℕ)
    (initialCapital : ℚ) : BreakoutState :=
  runLoop (breakoutDay cfg data) (dateRange startDate endDate)
    { capital := initialCapital, equity := [initialCapital], trades := [] }

/-- Configuration of `backtest_earnings_straddle` (the keys of its
`default_config`). -/
structure StraddleConfig where
  tickers : List String
  capital_per_trade : ℚ
  entry_days_before : ℤ
  exit_days_after : ℤ
  min_expected_move : ℚ
deriving DecidableEq, Repr

/-- An open straddle in `active_straddles`.  Every straddle in the
active set has `status == "OPEN"` (closing pops the entry right after
setting `CLOSED`), so the status field carries no information and is not
modelled. -/
structure Straddle where
  ticker : String
  entry_date : ℕ
  earnings_date : ℕ
  entry_price : ℚ
  call_premium : ℚ
  put_premium : ℚ
  quantity : ℤ
deriving DecidableEq, Repr

/-- The trade dict appended to `self.trades` when a straddle closes. -/
structure StraddleTrade where
  date : ℕ
  ticker : String
  entry_date : ℕ
  exit_date : ℕ
  entry_price : ℚ
  exit_price : ℚ
  price_change_pct : ℚ
  premium : ℚ
  quantity : ℤ
  pnl : ℚ
  pnl_pct : ℚ
deriving DecidableEq, Repr

/-- The active-straddle dict, keyed by `f"{ticker}_{earnings_date}"`;
modelled as an insertion-ordered association list, as a Python dict is. -/
abbrev ActiveSet := List ((String × ℕ) × Straddle)

/-- Python-dict insertion: overwrite in place when the key exists,
append otherwise. -/
def insertActive (k : String × ℕ) (s : Straddle) : ActiveSet → ActiveSet
  | [] => [(k, s)]
  | (k', t) :: rest =>
    if k' = k then (k, s) :: rest else (k', t) :: insertActive k s rest

/-- Attempt to open a straddle for `ticker` ahead of earnings date
`edate` on day `d`: skipped when the ticker has no bars that day; call
and put premiums are each `close * 0.03`; `qty =
int(capital_per_trade / total_cost)` (0 when `total_cost ≤ 0`), and the
open is skipped when `qty < 1`. -/
def tryOpenStraddle (cfg : StraddleConfig) (data : String → ℕ → List Bar)
    (d : ℕ) (ticker : String) (edate : ℕ) : Option Straddle :=
  match data ticker d with
  | [] => none
  | b0 :: _ =>
    let currentPrice := b0.close
    let callPremium := currentPrice * (3 / 100)
    let putPremium := currentPrice * (3 / 100)
    let totalCost := callPremium + putPremium
    let qty : ℤ :=
      if 0 < totalCost then pyInt (cfg.capital_per_trade / totalCost) else 0
    if qty < 1 then none
    else
      some { ticker := ticker
             entry_date := d
             earnings_date := edate
             entry_price := currentPrice
             call_premium := callPremium
             put_premium := putPremium
             quantity := qty }

/-- The open phase of one day for one ticker: every earnings date with
`(earnings_day - current_date).days == entry_days_before` triggers an
open attempt; successful opens are inserted under key
`(ticker, earnings_date)`. -/
def openPhaseTicker (cfg : StraddleConfig) (earnings : String → List ℕ)
    (data : String → ℕ → List Bar) (d : ℕ) (ticker : String)
    (active : ActiveSet) : ActiveSet :=
  let upcoming := (earnings ticker).filter
    (fun (e : ℕ) => (e : ℤ) - (d : ℤ) = cfg.entry_days_before)
  upcoming.foldl
    (fun ac e =>
      match tryOpenStraddle cfg data d ticker e with
      | none => ac
      | some s => insertActive (ticker, e) s ac)
    active

/-- The open phase of one day: all tickers in configured order. -/
def openPhase (cfg : StraddleConfig) (earnings : String → List ℕ)
    (data : String → ℕ → List Bar) (d : ℕ) (active : ActiveSet) :
    ActiveSet :=
  cfg.tickers.foldl (fun ac t => openPhaseTicker cfg earnings data d t ac)
    active

/-- Close an open straddle against the day's first close price:
`price_change_pct = |current_price - entry_price| / entry_price`; the
option value is `(call+put) * (1 + price_change_pct)` when the move
reached `min_expected_move` and `(call+put) * 0.5` otherwise;
`pnl = (option_value - entry_cost) * qty`. -/
def closeStraddle (cfg : StraddleConfig) (d : ℕ) (currentPrice : ℚ)
    (s : Straddle) : StraddleTrade :=
  let priceChangePct := |currentPrice - s.entry_price| / s.entry_price
  let optionValue :=
    if cfg.min_expected_move ≤ priceChangePct then
      (s.call_premium + s.put_premium) * (1 + priceChangePct)
    else
      (s.call_premium + s.put_premium) * (1 / 2)
  let entryCost := s.call_premium + s.put_premium
  let pnl := (optionValue - entryCost) * (s.quantity : ℚ)
  { date := s.entry_date
    ticker := s.ticker
    entry_date := s.entry_date
    exit_date := d
    entry_price := s.entry_price
    exit_price := currentPrice
    price_change_pct := priceChangePct * 100
    premium := entryCost
    quantity := s.quantity
    pnl := pnl
    pnl_pct := (optionValue / entryCost - 1) * 100 }

/-- The close phase of one day: walk the active set in insertion order;
a straddle whose `(current_date - earnings_day).days >=
exit_days_after` is closed when its ticker has bars that day and kept
(deferred) otherwise; a straddle not yet due is kept.  Returns the
remaining active set and the trades recorded, in order. -/
def closePhase (cfg : StraddleConfig) (data : String → ℕ → List Bar)
    (d : ℕ) : ActiveSet → ActiveSet × List StraddleTrade
  | [] => ([], [])
  | (k, s) :: rest =>
    let res := closePhase cfg data d rest
    if cfg.exit_days_after ≤ (d : ℤ) - (s.earnings_date : ℤ) then
      match data s.ticker d with
      | [] => ((k, s) :: res.1, res.2)
      | b0 :: _ => (res.1, closeStraddle cfg d b0.close s :: res.2)
    else
      ((k, s) :: res.1, res.2)

/-- The mutable run state of `backtest_earnings_straddle`. -/
structure StraddleState where
  capital : ℚ
  equity : List ℚ
  trades : List StraddleTrade
  active : ActiveSet
deriving DecidableEq, Repr

/-- One (non-weekend) day of the straddle backtest: open phase first,
then the close scan over the whole (updated) active set, then the
capital/equity update by the day's realized P&L. -/
def straddleDay (cfg : StraddleConfig) (earnings : String → List ℕ)
    (data : String → ℕ → List Bar) (d : ℕ) (st : StraddleState) :
    StraddleState :=
  let active1 := openPhase cfg earnings data d st.active
  let res := closePhase cfg data d active1
  let dailyPnl := (res.2.map StraddleTrade.pnl).sum
  { capital := st.capital + dailyPnl
    equity := st.equity ++ [st.capital + dailyPnl]
    trades := st.trades ++ res.2
    active := res.1 }

/-- `backtest_earnings_straddle`: starting from
`equity_curve = [initial_capital]`, no trades and no active straddles,
process every date in range. -/
def backtest_earnings_straddle (cfg : StraddleConfig)
    (earnings : String → List ℕ) (data : String → ℕ → List Bar)
    (startDate endDate : ℕ) (initialCapital : ℚ) : StraddleState :=
  runLoop (straddleDay cfg earnings data) (dateRange startDate endDate)
    { capital := initialCapital, equity := [initialCapital], trades := []
      active := [] }

/-- The metrics record built by `calculate_performance_metrics`.
`profit_factor = none` models Python's `float('inf')`.
`annual_return`, `volatility` and `sharpe_ratio` involve real-valued
exponents and square roots and are outside the rational model. -/
structure PerformanceMetrics where
  total_trades : ℕ
  winning_trades : ℕ
  losing_trades : ℕ
  win_rate : ℚ
  profit_factor : Option ℚ
  total_profit : ℚ
  total_loss : ℚ
  net_profit : ℚ
  total_return : ℚ
  max_drawdown : ℚ
deriving DecidableEq, Repr

/-- `np.maximum.accumulate`, given the running maximum so far. -/
def runningMaxFrom (m : ℚ) : List ℚ → List ℚ
  | [] => []
  | x :: xs => max m x :: runningMaxFrom (max m x) xs

/-- `np.maximum.accumulate equity_curve`. -/
def runningMax : List ℚ → List ℚ
  | [] => []
  | x :: xs => x :: runningMaxFrom x xs

/-- `min` over a list (`np.min`; 0 on the empty list, unreachable here
since the equity curve always holds the initial snapshot). -/
def listMin : List ℚ → ℚ
  | [] => 0
  | x :: xs => xs.foldl min x

/-- `calculate_performance_metrics`, as a function of the `pnl` column
of `self.trades` (the only trade field the metrics read) and of
`self.equity_curve`.  On an empty trade list the source logs a warning
and returns without computing anything, leaving `performance_metrics`
the empty dict it was initialised to: modelled by `none`. -/
def calculate_performance_metrics (pnls : List ℚ) (equity : List ℚ) :
    Option PerformanceMetrics :=
  if pnls.isEmpty then none
  else
    let totalTrades := pnls.length
    let winningTrades := (pnls.filter (fun p => 0 < p)).length
    let losingTrades := (pnls.filter (fun p => p ≤ 0)).length
    let winRate : ℚ :=
      if 0 < totalTrades then (winningTrades : ℚ) / (totalTrades : ℚ) else 0
    let totalProfit := (pnls.filter (fun p => 0 < p)).sum
    let totalLoss := (pnls.filter (fun p => p ≤ 0)).sum
    let profitFactor : Option ℚ :=
      if totalLoss ≠ 0 then some |totalProfit / totalLoss| else none
    let totalReturn := (equity.getLastD 0 / equity.headI - 1) * 100
    let drawdown :=
      List.zipWith (fun e m => (e - m) / m * 100) equity (runningMax equity)
    some { total_trades := totalTrades
           winning_trades := winningTrades
           losing_trades := losingTrades
           win_rate := winRate
           profit_factor := profitFactor
           total_profit := totalProfit
           total_loss := totalLoss
           net_profit := totalProfit + totalLoss
           total_return := totalReturn
           max_drawdown := |listMin drawdown| }

/-- Per the spec's words: the option premium at signal time is
`close × premium_rate` with `premium_rate` a configurable constant
(default `0.015`, listed among the recognized breakout options).  Stated
separately so it can be compared with the engine's `tradePremium`, which
reads no configuration. -/
def premiumPerSpec (premiumRate close : ℚ) : ℚ := close * premiumRate

/-! ### Concrete fixtures

Small synthetic runs used to instantiate the theorems below: a one-day
breakout run whose signal fires mid-day (`dataNormalDay`), one whose
signal fires on the day's last bar (`dataLastBarDay`), one whose single
trade expires with exactly zero P&L (`dataZeroPnlDay`), and straddle
runs with and without price data on the intended entry day.  Dates count
days from a Monday, so `0` is a Monday and `5, 6` a weekend. -/

/-- Breakout configuration fixture (the source defaults, one ticker). -/
def cfgB : BreakoutConfig :=
  { tickers := ["AAA"], risk_per_trade := 100, volume_multiplier := 6 / 5
    tp_multiplier := 6 / 5, sl_multiplier := 3 / 5 }

/-- Opening-range bar fixture: high 190, low 180, close 185, volume 1000. -/
def irBar : Bar := { high := 190, low := 180, close := 185, volume := 1000 }

/-- A bar breaking out above the opening range on high volume. -/
def sigBar : Bar := { high := 200, low := 195, close := 200, volume := 2000 }

/-- A later bar with the same close as the signal bar (flat move). -/
def flatBar : Bar := { high := 200, low := 195, close := 200, volume := 100 }

/-- A later bar 5% above the signal close. -/
def upBar : Bar := { high := 211, low := 200, close := 210, volume := 100 }

/-- One Monday of data: signal on bar 1, expiry on bar 2 at a gain. -/
def dataNormalDay : String → ℕ → List Bar := fun t d =>
  if t = "AAA" ∧ d = 0 then [irBar, sigBar, upBar] else []

/-- One Monday of data: the signal fires on the day's last bar. -/
def dataLastBarDay : String → ℕ → List Bar := fun t d =>
  if t = "AAA" ∧ d = 0 then [irBar, sigBar] else []

/-- One Monday of data: the single trade expires at exactly zero P&L. -/
def dataZeroPnlDay : String → ℕ → List Bar := fun t d =>
  if t = "AAA" ∧ d = 0 then [irBar, sigBar, flatBar] else []

/-- Straddle configuration fixture (the source defaults, one ticker). -/
def cfgS : StraddleConfig :=
  { tickers := ["AAA"], capital_per_trade := 500, entry_days_before := 1
    exit_days_after := 1, min_expected_move := 3 / 100 }

/-- One earnings date, on the Wednesday (day 2). -/
def earnS : String → List ℕ := fun t => if t = "AAA" then [2] else []

/-- A daily bar whose close is `p`. -/
def pxBar (p : ℚ) : Bar := { high := p, low := p, close := p, volume := 1000 }

/-- Daily closes 200 on the entry day (Tuesday) and 202 on the exit day
(Thursday). -/
def dataS : String → ℕ → List Bar := fun t d =>
  if t = "AAA" then
    if d = 1 then [pxBar 200] else if d = 3 then [pxBar 202] else []
  else []

/-- Same scenario, but the intended entry day (Tuesday) has no data;
Wednesday and Thursday do. -/
def dataSNoEntry : String → ℕ → List Bar := fun t d =>
  if t = "AAA" ∧ (d = 2 ∨ d = 3) then [pxBar 202] else []

/-- The straddle opened on day 1 of `dataS`: entry 200, premiums 6+6,
quantity `int(500/12) = 41`. -/
def strad0 : Straddle :=
  { ticker := "AAA", entry_date := 1, earnings_date := 2, entry_price := 200
    call_premium := 6, put_premium := 6, quantity := 41 }

/-- The trade the `dataNormalDay` run records: expiry on the last bar at
the repriced value `3.15`, for a gain of `0.15 × 33`. -/
def tNormal : Trade :=
  { date := 0, ticker := "AAA", signal := Signal.CALL, entry_price := 200
    premium := 3, quantity := 33, exit_price := 63 / 20, pnl := 99 / 20
    status := TradeStatus.EXPIRED }

/-- The trade the `dataLastBarDay` run records: the signal fired on the
day's last bar, so the full premium is lost while `exit_price` keeps the
entry premium. -/
def tLastBar : Trade :=
  { date := 0, ticker := "AAA", signal := Signal.CALL, entry_price := 200
    premium := 3, quantity := 33, exit_price := 3, pnl := -99
    status := TradeStatus.EXPIRED }

/-- The trade the `dataZeroPnlDay` run records: expiry at an unchanged
price, P&L exactly zero. -/
def tZeroPnl : Trade :=
  { date := 0, ticker := "AAA", signal := Signal.CALL, entry_price := 200
    premium := 3, quantity := 33, exit_price := 3, pnl := 0
    status := TradeStatus.EXPIRED }

/-- The trade the `dataS` straddle run records: entered Tuesday at 200,
closed Thursday at 202 (a 1% move, below the 3% threshold), so the
straddle decays to half its 12.0 cost: P&L `(6 − 12) × 41 = −246`. -/
def tStraddle : StraddleTrade :=
  { date := 1, ticker := "AAA", entry_date := 1, exit_date := 3
    entry_price := 200, exit_price := 202, price_change_pct := 1
    premium := 12, quantity := 41, pnl := -246, pnl_pct := -50 }

/-- The initial state of a straddle run with capital 10000. -/
def st0 : StraddleState :=
  { capital := 10000, equity := [10000], trades := [], active := [] }

/-! ### Derived predicates used in the statements below -/

/-- The state invariant maintained by every breakout day: the equity
curve is non-empty, starts at the initial capital, ends at the current
capital, and the capital is the initial capital plus the realized P&L of
all recorded trades. -/
def BreakoutInv (init : ℚ) (st : BreakoutState) : Prop :=
  st.equity ≠ [] ∧ st.equity.headI = init ∧
    st.equity.getLastD 0 = st.capital ∧
    st.capital = init + (st.trades.map Trade.pnl).sum

/-- The state invariant maintained by every straddle day (same shape as
the breakout one). -/
def StraddleInv (init : ℚ) (st : StraddleState) : Prop :=
  st.equity ≠ [] ∧ st.equity.headI = init ∧
    st.equity.getLastD 0 = st.capital ∧
    st.capital = init + (st.trades.map StraddleTrade.pnl).sum

/-- The realized-P&L identity a recorded breakout trade satisfies: its
P&L is `(exit_price − premium) × quantity`, except for a
signal-on-the-last-bar trade, which records the full loss
`−premium × quantity` while `exit_price` keeps the entry premium. -/
def BTradeOk (t : Trade) : Prop :=
  t.pnl = (t.exit_price - t.premium) * (t.quantity : ℚ) ∨
    (t.pnl = -t.premium * (t.quantity : ℚ) ∧ t.exit_price = t.premium)

/-- The closing value of a straddle, recomputed from the fields recorded
on its trade: the combined entry premium scaled by `1 + price_change`
when the move reached `min_expected_move` and halved otherwise. -/
def straddleExitValue (cfg : StraddleConfig) (t : StraddleTrade) : ℚ :=
  let pct := |t.exit_price - t.entry_price| / t.entry_price
  if cfg.min_expected_move ≤ pct then t.premium * (1 + pct)
  else t.premium * (1 / 2)

/-- The identities a recorded straddle trade satisfies: the stored
percentage move is `|exit − entry| / entry × 100`, and the P&L is
`(closing option value − combined entry premium) × quantity`. -/
def STradeOk (cfg : StraddleConfig) (t : StraddleTrade) : Prop :=
  t.price_change_pct = |t.exit_price - t.entry_price| / t.entry_price * 100 ∧
    t.pnl = (straddleExitValue cfg t - t.premium) * (t.quantity : ℚ)

/-! ### Generic facts about the day loop -/

/-- A property preserved by every processed day is preserved by the
whole loop. -/
lemma runLoop_inv {σ : Type} (step : ℕ → σ → σ) (P : σ → Prop)
    (hstep : ∀ d st, P st → P (step d st)) :
    ∀ (ds : List ℕ) (st : σ), P st → P (runLoop step ds st) := by
  intro ds
  induction ds with
  | nil => intro st h; exact h
  | cons d ds ih =>
    intro st h
    simp only [runLoop]
    by_cases hd : 5 ≤ d % 7
    · rw [if_pos hd]; exact ih st h
    · rw [if_neg hd]; exact ih _ (hstep d st h)

/-- A counter that grows by one on every processed day ends up larger by
the number of non-weekend dates. -/
lemma runLoop_count {σ : Type} (step : ℕ → σ → σ) (f : σ → ℕ)
    (hstep : ∀ d st, f (step d st) = f st + 1) :
    ∀ (ds : List ℕ) (st : σ),
      f (runLoop step ds st) =
        f st + (ds.filter (fun d => d % 7 < 5)).length := by
  intro ds
  induction ds with
  | nil => intro st; simp [runLoop]
  | cons d ds ih =>
    intro st
    simp only [runLoop, List.filter_cons]
    by_cases hd : 5 ≤ d % 7
    · have hlt : ¬ d % 7 < 5 := by omega
      rw [if_pos hd]
      simp [hlt, ih st]
    · have hlt : d % 7 < 5 := by omega
      rw [if_neg hd]
      simp [hlt, ih (step d st), hstep d st]
      omega

/-- Appending to a non-empty list keeps its first element. -/
lemma headI_concat {α : Type} [Inhabited α] (l : List α) (x : α)
    (h : l ≠ []) : (l ++ [x]).headI = l.headI := by
  cases l with
  | nil => exact absurd rfl h
  | cons a as => simp

/-! ### Run invariants of the breakout backtest -/

lemma breakoutDay_preserves (cfg : BreakoutConfig)
    (data : String → ℕ → List Bar) (init : ℚ) (d : ℕ) (st : BreakoutState)
    (h : BreakoutInv init st) : BreakoutInv init (breakoutDay cfg data d st) := by
  obtain ⟨hne, hhead, hlast, hcap⟩ := h
  refine ⟨by simp [breakoutDay], ?_, ?_, ?_⟩
  · simpa [breakoutDay] using (headI_concat st.equity _ hne).trans hhead
  · simp [breakoutDay, List.getLastD_concat]
  · simp only [breakoutDay, List.map_append, List.sum_append]
    rw [hcap]; ring

lemma backtest_odte_breakout_inv (cfg : BreakoutConfig)
    (data : String → ℕ → List Bar) (startDate endDate : ℕ) (init : ℚ) :
    BreakoutInv init (backtest_odte_breakout cfg data startDate endDate init) := by
  exact runLoop_inv (breakoutDay cfg data) (BreakoutInv init)
    (breakoutDay_preserves cfg data init) _ _
    ⟨by simp, by simp, by simp, by simp⟩

lemma backtest_odte_breakout_equity_length (cfg : BreakoutConfig)
    (data : String → ℕ → List Bar) (startDate endDate : ℕ) (init : ℚ) :
    (backtest_odte_breakout cfg data startDate endDate init).equity.length =
      1 + (tradingDays startDate endDate).length := by
  have h := runLoop_count (breakoutDay cfg data)
    (fun st => st.equity.length) (by intro d st; simp [breakoutDay])
    (dateRange startDate endDate)
    { capital := init, equity := [init], trades := [] }
  simpa [backtest_odte_breakout, tradingDays, Nat.add_comm] using h

/-! ### Run invariants of the straddle backtest -/

lemma straddleDay_preserves (cfg : StraddleConfig)
    (earnings : String → List ℕ) (data : String → ℕ → List Bar) (init : ℚ)
    (d : ℕ) (st : StraddleState) (h : StraddleInv init st) :
    StraddleInv init (straddleDay cfg earnings data d st) := by
  obtain ⟨hne, hhead, hlast, hcap⟩ := h
  refine ⟨by simp [straddleDay], ?_, ?_, ?_⟩
  · simpa [straddleDay] using (headI_concat st.equity _ hne).trans hhead
  · simp [straddleDay, List.getLastD_concat]
  · simp only [straddleDay, List.map_append, List.sum_append]
    rw [hcap]; ring

lemma backtest_earnings_straddle_inv (cfg : StraddleConfig)
    (earnings : String → List ℕ) (data : String → ℕ → List Bar)
    (startDate endDate : ℕ) (init : ℚ) :
    StraddleInv init
      (backtest_earnings_straddle cfg earnings data startDate endDate init) := by
  exact runLoop_inv (straddleDay cfg earnings data) (StraddleInv init)
    (straddleDay_preserves cfg earnings data init) _ _
    ⟨by simp, by simp, by simp, by simp⟩

lemma backtest_earnings_straddle_equity_length (cfg : StraddleConfig)
    (earnings : String → List ℕ) (data : String → ℕ → List Bar)
    (startDate endDate : ℕ) (init : ℚ) :
    (backtest_earnings_straddle cfg earnings data startDate endDate
        init).equity.length = 1 + (tradingDays startDate endDate).length := by
  have h := runLoop_count (straddleDay cfg earnings data)
    (fun st => st.equity.length) (by intro d st; simp [straddleDay])
    (dateRange startDate endDate)
    { capital := init, equity := [init], trades := [], active := [] }
  simpa [backtest_earnings_straddle, tradingDays, Nat.add_comm] using h

/-! ### Shape of the trades each simulator records -/

lemma scanExit_pnl (sig : Signal) (premium close sl tp qty : ℚ) :
    ∀ bars : List Bar, bars ≠ [] →
      (scanExit sig premium close sl tp qty bars).1 =
        ((scanExit sig premium close sl tp qty bars).2 - premium) * qty := by
  intro bars
  induction bars with
  | nil => intro h; exact absurd rfl h
  | cons fb rest ih =>
    intro _
    simp only [scanExit]
    split_ifs with h1 h2
    · simp
    · simp
    · cases rest with
      | nil => simp
      | cons r rs => simpa using ih (by simp)

lemma mkBreakoutTrade_pnl_of_ne_nil (cfg : BreakoutConfig) (date : ℕ)
    (ticker : String) (sig : Signal) (b : Bar) (remaining : List Bar)
    (h : remaining ≠ []) :
    (mkBreakoutTrade cfg date ticker sig b remaining).pnl =
      ((mkBreakoutTrade cfg date ticker sig b remaining).exit_price -
          (mkBreakoutTrade cfg date ticker sig b remaining).premium) *
        ((mkBreakoutTrade cfg date ticker sig b remaining).quantity : ℚ) := by
  simp only [mkBreakoutTrade]
  exact scanExit_pnl _ _ _ _ _ _ remaining h

lemma mkBreakoutTrade_pnl_of_nil (cfg : BreakoutConfig) (date : ℕ)
    (ticker : String) (sig : Signal) (b : Bar) :
    (mkBreakoutTrade cfg date ticker sig b []).pnl =
        -(mkBreakoutTrade cfg date ticker sig b []).premium *
          ((mkBreakoutTrade cfg date ticker sig b []).quantity : ℚ) ∧
      (mkBreakoutTrade cfg date ticker sig b []).exit_price =
        (mkBreakoutTrade cfg date ticker sig b []).premium := by
  simp [mkBreakoutTrade, scanExit]

lemma mkBreakoutTrade_ok (cfg : BreakoutConfig) (date : ℕ) (ticker : String)
    (sig : Signal) (b : Bar) (remaining : List Bar) :
    BTradeOk (mkBreakoutTrade cfg date ticker sig b remaining) := by
  cases remaining with
  | nil => exact Or.inr (mkBreakoutTrade_pnl_of_nil cfg date ticker sig b)
  | cons r rs =>
    exact Or.inl (mkBreakoutTrade_pnl_of_ne_nil cfg date ticker sig b _ (by simp))

lemma firstSignalTrade_shape (cfg : BreakoutConfig) (date : ℕ)
    (ticker : String) (ir : Bar) :
    ∀ (bs : List Bar) (t : Trade),
      firstSignalTrade cfg date ticker ir bs = some t →
      ∃ sig b rem, breakoutSignal cfg ir b = some sig ∧
        t = mkBreakoutTrade cfg date ticker sig b rem := by
  intro bs
  induction bs with
  | nil => intro t h; simp [firstSignalTrade] at h
  | cons b rest ih =>
    intro t h
    rw [firstSignalTrade] at h
    cases hs : breakoutSignal cfg ir b with
    | none => rw [hs] at h; exact ih t h
    | some sig =>
      rw [hs] at h
      injection h with h
      exact ⟨sig, b, rest, hs, h.symm⟩

lemma processTickerDay_shape (cfg : BreakoutConfig) (date : ℕ)
    (ticker : String) (bars : List Bar) (t : Trade)
    (h : processTickerDay cfg date ticker bars = some t) :
    ∃ sig b rem, t = mkBreakoutTrade cfg date ticker sig b rem := by
  cases bars with
  | nil => simp [processTickerDay] at h
  | cons ir rest =>
    obtain ⟨sig, b, rem, -, ht⟩ :=
      firstSignalTrade_shape cfg date ticker ir rest t h
    exact ⟨sig, b, rem, ht⟩

lemma breakout_run_trades_ok (cfg : BreakoutConfig)
    (data : String → ℕ → List Bar) (startDate endDate : ℕ) (init : ℚ) :
    ∀ t ∈ (backtest_odte_breakout cfg data startDate endDate init).trades,
      BTradeOk t := by
  have hstep : ∀ (d : ℕ) (st : BreakoutState),
      (∀ t ∈ st.trades, BTradeOk t) →
      ∀ t ∈ (breakoutDay cfg data d st).trades, BTradeOk t := by
    intro d st hst t ht
    simp only [breakoutDay, List.mem_append] at ht
    rcases ht with ht | ht
    · exact hst t ht
    · obtain ⟨tk, -, hp⟩ := List.mem_filterMap.mp ht
      obtain ⟨sig, b, rem, rfl⟩ := processTickerDay_shape cfg d tk _ t hp
      exact mkBreakoutTrade_ok cfg d tk sig b rem
  exact runLoop_inv (breakoutDay cfg data)
    (fun st : BreakoutState => ∀ t ∈ st.trades, BTradeOk t) hstep
    (dateRange startDate endDate)
    { capital := init, equity := [init], trades := [] } (by simp)

lemma closeStraddle_ok (cfg : StraddleConfig) (d : ℕ) (p : ℚ)
    (s : Straddle) : STradeOk cfg (closeStraddle cfg d p s) := by
  exact ⟨rfl, rfl⟩

lemma closePhase_trades_shape (cfg : StraddleConfig)
    (data : String → ℕ → List Bar) (d : ℕ) :
    ∀ (active : ActiveSet) (t : StraddleTrade),
      t ∈ (closePhase cfg data d active).2 →
      ∃ p s, t = closeStraddle cfg d p s := by
  intro active
  induction active with
  | nil => intro t ht; simp [closePhase] at ht
  | cons ks rest ih =>
    intro t ht
    obtain ⟨k, s⟩ := ks
    rw [closePhase] at ht
    split_ifs at ht with h1
    · cases hdata : data s.ticker d with
      | nil => rw [hdata] at ht; exact ih t ht
      | cons b0 bs =>
        rw [hdata] at ht
        simp only [List.mem_cons] at ht
        rcases ht with rfl | ht
        · exact ⟨b0.close, s, rfl⟩
        · exact ih t ht
    · exact ih t ht

lemma straddle_run_trades_ok (cfg : StraddleConfig)
    (earnings : String → List ℕ) (data : String → ℕ → List Bar)
    (startDate endDate : ℕ) (init : ℚ) :
    ∀ t ∈ (backtest_earnings_straddle cfg earnings data startDate endDate
        init).trades, STradeOk cfg t := by
  have hstep : ∀ (d : ℕ) (st : StraddleState),
      (∀ t ∈ st.trades, STradeOk cfg t) →
      ∀ t ∈ (straddleDay cfg earnings data d st).trades, STradeOk cfg t := by
    intro d st hst t ht
    simp only [straddleDay, List.mem_append] at ht
    rcases ht with ht | ht
    · exact hst t ht
    · obtain ⟨p, s, rfl⟩ := closePhase_trades_shape cfg data d _ t ht
      exact closeStraddle_ok cfg d p s
  exact runLoop_inv (straddleDay cfg earnings data)
    (fun st : StraddleState => ∀ t ∈ st.trades, STradeOk cfg t) hstep
    (dateRange startDate endDate)
    { capital := init, equity := [init], trades := [], active := [] } (by simp)

/-! ### The close phase: deferral on missing data -/

lemma closePhase_kept (cfg : StraddleConfig) (data : String → ℕ → List Bar)
    (d : ℕ) :
    ∀ (active : ActiveSet) (k : String × ℕ) (s : Straddle),
      (k, s) ∈ active →
      cfg.exit_days_after ≤ (d : ℤ) - (s.earnings_date : ℤ) →
      data s.ticker d = [] →
      (k, s) ∈ (closePhase cfg data d active).1 := by
  intro active
  induction active with
  | nil => intro k s h _ _; simp at h
  | cons ks' rest ih =>
    intro k s hmem hdue hdata
    obtain ⟨k', s'⟩ := ks'
    rcases List.mem_cons.mp hmem with heq | hmem'
    · cases heq
      simp [closePhase, hdue, hdata]
    · have h' := ih k s hmem' hdue hdata
      simp only [closePhase]
      split_ifs with h1
      · cases hdata' : data s'.ticker d with
        | nil => simp [List.mem_cons, h']
        | cons b0 bs => simp [h']
      · simp [List.mem_cons, h']

lemma closePhase_closes (cfg : StraddleConfig) (data : String → ℕ → List Bar)
    (d : ℕ) :
    ∀ (active : ActiveSet) (k : String × ℕ) (s : Straddle) (b0 : Bar)
      (bs : List Bar),
      (k, s) ∈ active →
      cfg.exit_days_after ≤ (d : ℤ) - (s.earnings_date : ℤ) →
      data s.ticker d = b0 :: bs →
      closeStraddle cfg d b0.close s ∈ (closePhase cfg data d active).2 := by
  intro active
  induction active with
  | nil => intro k s b0 bs h _ _; simp at h
  | cons ks' rest ih =>
    intro k s b0 bs hmem hdue hdata
    obtain ⟨k', s'⟩ := ks'
    rcases List.mem_cons.mp hmem with heq | hmem'
    · cases heq
      simp [closePhase, hdue, hdata]
    · have h' := ih k s b0 bs hmem' hdue hdata
      simp only [closePhase]
      split_ifs with h1
      · cases hdata' : data s'.ticker d with
        | nil => simp [h']
        | cons c0 cs => simp [List.mem_cons, h']
      · simp [h']

/-! ### The open phase: opens happen only on the exact entry day -/

lemma mem_insertActive (k : String × ℕ) (s : Straddle) :
    ∀ (ac : ActiveSet) (ks : (String × ℕ) × Straddle),
      ks ∈ insertActive k s ac → ks = (k, s) ∨ ks ∈ ac := by
  intro ac
  induction ac with
  | nil => intro ks h; left; simpa [insertActive] using h
  | cons ks' rest ih =>
    intro ks h
    rw [insertActive] at h
    split_ifs at h with h1
    · rcases List.mem_cons.mp h with heq | hmem
      · exact Or.inl heq
      · exact Or.inr (List.mem_cons_of_mem _ hmem)
    · rcases List.mem_cons.mp h with heq | hmem
      · exact Or.inr (heq ▸ List.mem_cons_self _ _)
      · rcases ih ks hmem with h' | h'
        · exact Or.inl h'
        · exact Or.inr (List.mem_cons_of_mem _ h')

lemma tryOpenStraddle_shape (cfg : StraddleConfig)
    (data : String → ℕ → List Bar) (d : ℕ) (ticker : String) (edate : ℕ)
    (s : Straddle) (h : tryOpenStraddle cfg data d ticker edate = some s) :
    s.entry_date = d ∧ s.earnings_date = edate ∧ s.ticker = ticker ∧
      data ticker d ≠ [] := by
  rw [tryOpenStraddle] at h
  cases hdata : data ticker d with
  | nil => rw [hdata] at h; simp at h
  | cons b0 bs =>
    rw [hdata] at h
    simp only at h
    split_ifs at h with h1 h2 <;>
      first
        | omega
        | (injection h with h
           subst h
           exact ⟨rfl, rfl, rfl, by simp [hdata]⟩)

lemma openFold_mem (cfg : StraddleConfig) (data : String → ℕ → List Bar)
    (d : ℕ) (ticker : String) :
    ∀ (es : List ℕ) (active : ActiveSet) (ks : (String × ℕ) × Straddle),
      ks ∈ es.foldl
        (fun ac e =>
          match tryOpenStraddle cfg data d ticker e with
          | none => ac
          | some s => insertActive (ticker, e) s ac) active →
      ks ∈ active ∨ (ks.2.entry_date = d ∧ ks.2.ticker = ticker ∧
        ks.2.earnings_date ∈ es ∧ data ticker d ≠ []) := by
  intro es
  induction es with
  | nil => intro active ks h; exact Or.inl h
  | cons e es ih =>
    intro active ks h
    simp only [List.foldl_cons] at h
    cases hto : tryOpenStraddle cfg data d ticker e with
    | none =>
      rw [hto] at h
      rcases ih _ ks h with h' | h'
      · exact Or.inl h'
      · exact Or.inr ⟨h'.1, h'.2.1, List.mem_cons_of_mem _ h'.2.2.1, h'.2.2.2⟩
    | some s =>
      rw [hto] at h
      rcases ih _ ks h with h' | h'
      · rcases mem_insertActive (ticker, e) s active ks h' with heq | hmem
        · obtain ⟨hd, he, ht, hne⟩ := tryOpenStraddle_shape cfg data d ticker e s hto
          subst heq
          exact Or.inr ⟨hd, ht, by rw [he]; exact List.mem_cons_self _ _, hne⟩
        · exact Or.inl hmem
      · exact Or.inr ⟨h'.1, h'.2.1, List.mem_cons_of_mem _ h'.2.2.1, h'.2.2.2⟩

lemma openPhase_mem (cfg : StraddleConfig) (earnings : String → List ℕ)
    (data : String → ℕ → List Bar) (d : ℕ) :
    ∀ (tks : List String) (active : ActiveSet) (ks : (String × ℕ) × Straddle),
      ks ∈ tks.foldl
        (fun ac t => openPhaseTicker cfg earnings data d t ac) active →
      ks ∈ active ∨ (ks.2.entry_date = d ∧
        (ks.2.earnings_date : ℤ) - (d : ℤ) = cfg.entry_days_before ∧
        data ks.2.ticker d ≠ []) := by
  intro tks
  induction tks with
  | nil => intro active ks h; exact Or.inl h
  | cons t ts ih =>
    intro active ks h
    simp only [List.foldl_cons] at h
    rcases ih _ ks h with h' | h'
    · rw [openPhaseTicker] at h'
      rcases openFold_mem cfg data d t _ _ ks h' with h'' | h''
      · exact Or.inl h''
      · obtain ⟨hd, ht, hmemf, hne⟩ := h''
        have := List.of_mem_filter hmemf
        refine Or.inr ⟨hd, by simpa using this, ?_⟩
        rw [ht]; exact hne
    · exact Or.inr h'

/-! ### The first qualifying bar wins -/

lemma firstSignalTrade_first (cfg : BreakoutConfig) (date : ℕ)
    (ticker : String) (ir : Bar) :
    ∀ (bs : List Bar) (i : ℕ) (hi : i < bs.length) (sig : Signal),
      (∀ (j : ℕ) (hj : j < bs.length), j < i →
        breakoutSignal cfg ir (bs.get ⟨j, hj⟩) = none) →
      breakoutSignal cfg ir (bs.get ⟨i, hi⟩) = some sig →
      firstSignalTrade cfg date ticker ir bs =
        some (mkBreakoutTrade cfg date ticker sig (bs.get ⟨i, hi⟩)
          (bs.drop (i + 1))) := by
  intro bs
  induction bs with
  | nil => intro i hi; simp at hi
  | cons b rest ih =>
    intro i hi sig hnone hsig
    cases i with
    | zero =>
      rw [firstSignalTrade]
      simp only [List.get] at hsig ⊢
      rw [hsig]
      simp
    | succ j =>
      have hb : breakoutSignal cfg ir b = none := by
        have := hnone 0 (by simp) (Nat.succ_pos j)
        simpa using this
      rw [firstSignalTrade, hb]
      have hj' : j < rest.length := by simpa using hi
      have hrec := ih j hj' sig
        (fun k hk hkj => by
          have := hnone (k + 1) (by simpa using hk) (Nat.succ_lt_succ hkj)
          simpa using this)
        (by simpa using hsig)
      simpa using hrec

/-! ### Evaluation of the concrete fixtures -/

/-- The single trade of the `dataLastBarDay` run: the signal fires on
the day's last bar, so the trade records the full loss `−premium × qty`
while `exit_price` keeps the entry premium `3`. -/
lemma eval_breakout_lastbar :
    backtest_odte_breakout cfgB dataLastBarDay 0 0 10000 =
      { capital := 9901, equity := [10000, 9901], trades := [tLastBar] } := by
  norm_num [backtest_odte_breakout, dateRange, List.range', runLoop,
    breakoutDay, breakoutDayTrades, List.filterMap_cons, List.filterMap_nil,
    processTickerDay, firstSignalTrade, breakoutSignal, mkBreakoutTrade,
    tradePremium, tradeQty, tradeSL, tradeTP, pyInt, scanExit, cfgB,
    dataLastBarDay, irBar, sigBar, tLastBar]

/-- The `dataNormalDay` run: one trade, expiring on the last bar at a
gain of `4.95`. -/
lemma eval_breakout_normal :
    backtest_odte_breakout cfgB dataNormalDay 0 0 10000 =
      { capital := 200099 / 20, equity := [10000, 200099 / 20]
        trades := [tNormal] } := by
  norm_num [backtest_odte_breakout, dateRange, List.range', runLoop,
    breakoutDay, breakoutDayTrades, List.filterMap_cons, List.filterMap_nil,
    processTickerDay, firstSignalTrade, breakoutSignal, mkBreakoutTrade,
    tradePremium, tradeQty, tradeSL, tradeTP, pyInt, scanExit, optionPrice,
    cfgB, dataNormalDay, irBar, sigBar, upBar, tNormal]

/-- The `dataZeroPnlDay` run: one trade with exactly zero P&L. -/
lemma eval_breakout_zeropnl :
    backtest_odte_breakout cfgB dataZeroPnlDay 0 0 10000 =
      { capital := 10000, equity := [10000, 10000]
        trades := [tZeroPnl] } := by
  norm_num [backtest_odte_breakout, dateRange, List.range', runLoop,
    breakoutDay, breakoutDayTrades, List.filterMap_cons, List.filterMap_nil,
    processTickerDay, firstSignalTrade, breakoutSignal, mkBreakoutTrade,
    tradePremium, tradeQty, tradeSL, tradeTP, pyInt, scanExit, optionPrice,
    cfgB, dataZeroPnlDay, irBar, sigBar, flatBar, tZeroPnl]

/-- The `dataS` straddle run over Monday–Friday: a straddle opens on
Tuesday, closes on Thursday for `−246`, and the equity curve books the
loss on Thursday. -/
lemma eval_straddle :
    backtest_earnings_straddle cfgS earnS dataS 0 4 10000 =
      { capital := 9754
        equity := [10000, 10000, 10000, 10000, 9754, 9754]
        trades := [tStraddle], active := [] } := by
  norm_num [backtest_earnings_straddle, dateRange, List.range', runLoop,
    straddleDay, openPhase, openPhaseTicker, tryOpenStraddle, insertActive,
    closePhase, closeStraddle, pyInt, List.foldl_cons, List.foldl_nil,
    List.filter_cons, List.filter_nil, cfgS, earnS, dataS, pxBar, tStraddle]

/-- The `dataSNoEntry` straddle run: the intended entry day has no data,
so no straddle is ever opened and no trade is ever recorded, although
both the following days have data. -/
lemma eval_straddle_noentry :
    backtest_earnings_straddle cfgS earnS dataSNoEntry 0 4 10000 =
      { capital := 10000
        equity := [10000, 10000, 10000, 10000, 10000, 10000]
        trades := [], active := [] } := by
  norm_num [backtest_earnings_straddle, dateRange, List.range', runLoop,
    straddleDay, openPhase, openPhaseTicker, tryOpenStraddle, insertActive,
    closePhase, closeStraddle, pyInt, List.foldl_cons, List.foldl_nil,
    List.filter_cons, List.filter_nil, cfgS, earnS, dataSNoEntry, pxBar]

/-! ### Claim theorems -/

/-- C1 (amended): every trade recorded by either simulator satisfies
`realized_pnl = (exit_premium − premium_estimate) × quantity` — for a
straddle trade the exit premium is the closing straddle value — EXCEPT a
breakout trade whose signal fires on the last bar of the day: that trade
records the full loss `−premium × quantity` while its `exit_price` field
keeps the entry premium estimate, so the identity fails on the
EXPIRED-with-no-remaining-bars branch. -/
theorem c1_trade_pnl_identity (bcfg : BreakoutConfig)
    (bdata : String → ℕ → List Bar) (scfg : StraddleConfig)
    (earnings : String → List ℕ) (sdata : String → ℕ → List Bar)
    (startDate endDate : ℕ) (init : ℚ) :
    (∀ t ∈ (backtest_odte_breakout bcfg bdata startDate endDate init).trades,
      t.pnl = (t.exit_price - t.premium) * (t.quantity : ℚ) ∨
        (t.pnl = -t.premium * (t.quantity : ℚ) ∧ t.exit_price = t.premium)) ∧
    (∀ t ∈ (backtest_earnings_straddle scfg earnings sdata startDate endDate
        init).trades,
      t.pnl = (straddleExitValue scfg t - t.premium) * (t.quantity : ℚ)) := by
  refine ⟨breakout_run_trades_ok bcfg bdata startDate endDate init, ?_⟩
  intro t ht
  exact (straddle_run_trades_ok scfg earnings sdata startDate endDate init
    t ht).2

/-- C1, counterexample to the claim as stated: in the
`dataLastBarDay` run the signal fires on the day's last bar; the
recorded trade has `pnl = −99` and `exit_price = premium = 3`, so
`(exit_premium − premium_estimate) × quantity = 0 ≠ −99`. -/
theorem c1_counterexample :
    tLastBar ∈ (backtest_odte_breakout cfgB dataLastBarDay 0 0 10000).trades ∧
      tLastBar.status = TradeStatus.EXPIRED ∧
      tLastBar.pnl ≠
        (tLastBar.exit_price - tLastBar.premium) * (tLastBar.quantity : ℚ) := by
  refine ⟨?_, rfl, ?_⟩
  · rw [eval_breakout_lastbar]; exact List.mem_cons_self _ _
  · norm_num [tLastBar]

/-- C1, witness: the amended identity instantiated on the recorded
trades of the two concrete runs. -/
theorem c1_witness :
    (tNormal ∈ (backtest_odte_breakout cfgB dataNormalDay 0 0 10000).trades ∧
      (tNormal.pnl = (tNormal.exit_price - tNormal.premium) *
          (tNormal.quantity : ℚ) ∨
        (tNormal.pnl = -tNormal.premium * (tNormal.quantity : ℚ) ∧
          tNormal.exit_price = tNormal.premium))) ∧
    (tStraddle ∈
        (backtest_earnings_straddle cfgS earnS dataS 0 4 10000).trades ∧
      tStraddle.pnl = (straddleExitValue cfgS tStraddle - tStraddle.premium) *
        (tStraddle.quantity : ℚ)) := by
  have hb : tNormal ∈
      (backtest_odte_breakout cfgB dataNormalDay 0 0 10000).trades := by
    rw [eval_breakout_normal]; exact List.mem_cons_self _ _
  have hs : tStraddle ∈
      (backtest_earnings_straddle cfgS earnS dataS 0 4 10000).trades := by
    rw [eval_straddle]; exact List.mem_cons_self _ _
  exact ⟨⟨hb, (c1_trade_pnl_identity cfgB dataNormalDay cfgS earnS dataS 0 0
      10000).1 tNormal hb⟩,
    ⟨hs, (c1_trade_pnl_identity cfgB dataNormalDay cfgS earnS dataS 0 4
      10000).2 tStraddle hs⟩⟩

/-- C9: every trade recorded by the straddle simulator satisfies the
close-out formulas: the stored percentage move is
`|exit_close − entry_price| / entry_price` (×100 as stored), the closing
option value is `(call+put) × (1 + move)` when the move reached
`min_expected_move` and `(call+put) × 0.5` otherwise, and
`realized_pnl = (option_value − entry_cost) × quantity`. -/
theorem c9_straddle_close_formulas (cfg : StraddleConfig)
    (earnings : String → List ℕ) (data : String → ℕ → List Bar)
    (startDate endDate : ℕ) (init : ℚ) :
    ∀ t ∈ (backtest_earnings_straddle cfg earnings data startDate endDate
        init).trades,
      t.price_change_pct =
        |t.exit_price - t.entry_price| / t.entry_price * 100 ∧
      t.pnl =
        ((if cfg.min_expected_move ≤
              |t.exit_price - t.entry_price| / t.entry_price then
            t.premium * (1 + |t.exit_price - t.entry_price| / t.entry_price)
          else t.premium * (1 / 2)) - t.premium) * (t.quantity : ℚ) := by
  intro t ht
  obtain ⟨h1, h2⟩ :=
    straddle_run_trades_ok cfg earnings data startDate endDate init t ht
  refine ⟨h1, ?_⟩
  simpa [straddleExitValue] using h2

/-- C9, witness: the close-out formulas instantiated on the trade of the
concrete straddle run (scenario: 1% move below the 3% threshold, decay
to half value, P&L `(6 − 12) × 41 = −246`). -/
theorem c9_witness :
    tStraddle ∈ (backtest_earnings_straddle cfgS earnS dataS 0 4
        10000).trades ∧
      tStraddle.price_change_pct =
        |tStraddle.exit_price - tStraddle.entry_price| /
          tStraddle.entry_price * 100 ∧
      tStraddle.pnl =
        ((if cfgS.min_expected_move ≤
              |tStraddle.exit_price - tStraddle.entry_price| /
                tStraddle.entry_price then
            tStraddle.premium * (1 + |tStraddle.exit_price -
              tStraddle.entry_price| / tStraddle.entry_price)
          else tStraddle.premium * (1 / 2)) - tStraddle.premium) *
          (tStraddle.quantity : ℚ) := by
  have hs : tStraddle ∈
      (backtest_earnings_straddle cfgS earnS dataS 0 4 10000).trades := by
    rw [eval_straddle]; exact List.mem_cons_self _ _
  exact ⟨hs, c9_straddle_close_formulas cfgS earnS dataS 0 4 10000 tStraddle hs⟩

/-- C4: for every completed run of either strategy, the last entry of
the equity curve minus its first entry equals the sum of `realized_pnl`
over all trades in the trade log (exact P&L conservation between the
trade log and the equity curve). -/
theorem c4_pnl_conservation (bcfg : BreakoutConfig)
    (bdata : String → ℕ → List Bar) (scfg : StraddleConfig)
    (earnings : String → List ℕ) (sdata : String → ℕ → List Bar)
    (startDate endDate : ℕ) (init : ℚ) :
    ((backtest_odte_breakout bcfg bdata startDate endDate init).equity.getLastD 0
        - (backtest_odte_breakout bcfg bdata startDate endDate init).equity.headI
      = ((backtest_odte_breakout bcfg bdata startDate endDate
          init).trades.map Trade.pnl).sum) ∧
    ((backtest_earnings_straddle scfg earnings sdata startDate endDate
          init).equity.getLastD 0
        - (backtest_earnings_straddle scfg earnings sdata startDate endDate
          init).equity.headI
      = ((backtest_earnings_straddle scfg earnings sdata startDate endDate
          init).trades.map StraddleTrade.pnl).sum) := by
  obtain ⟨-, h1, h2, h3⟩ := backtest_odte_breakout_inv bcfg bdata startDate endDate init
  obtain ⟨-, g1, g2, g3⟩ :=
    backtest_earnings_straddle_inv scfg earnings sdata startDate endDate init
  constructor
  · rw [h1, h2, h3]; ring
  · rw [g1, g2, g3]; ring

/-- C7: for every completed run of either strategy, the equity curve has
exactly `1 + number of simulated trading days` entries — one initial
snapshot plus one snapshot per processed day — and the simulated trading
days are exactly the non-weekend dates of the range. -/
theorem c7_equity_curve_length (bcfg : BreakoutConfig)
    (bdata : String → ℕ → List Bar) (scfg : StraddleConfig)
    (earnings : String → List ℕ) (sdata : String → ℕ → List Bar)
    (startDate endDate : ℕ) (init : ℚ) :
    ((backtest_odte_breakout bcfg bdata startDate endDate init).equity.length
      = 1 + (tradingDays startDate endDate).length) ∧
    ((backtest_earnings_straddle scfg earnings sdata startDate endDate
        init).equity.length = 1 + (tradingDays startDate endDate).length) ∧
    (∀ d ∈ tradingDays startDate endDate, d % 7 < 5) := by
  refine ⟨backtest_odte_breakout_equity_length bcfg bdata startDate endDate init,
    backtest_earnings_straddle_equity_length scfg earnings sdata startDate
      endDate init, ?_⟩
  intro d hd
  have := List.of_mem_filter hd
  simpa using this

/-- C2 (amended): a run whose completed trade log is empty does not
fail, but it produces no PerformanceMetrics record at all: the
computation returns early and the metrics mapping stays empty — no
degenerate record with `win_rate = 0` is built. -/
theorem c2_empty_trades_no_metrics (pnls equity : List ℚ)
    (h : pnls = []) : calculate_performance_metrics pnls equity = none := by
  subst h
  simp [calculate_performance_metrics]

/-- C2, counterexample to the claim as stated: on an empty trade log
(with the single-snapshot equity curve of a degenerate run) the metrics
computation produces no record whatsoever. -/
theorem c2_counterexample :
    ¬ ∃ m, calculate_performance_metrics ([] : List ℚ) [10000] = some m := by
  simp [calculate_performance_metrics]

/-- C2, witness: the amended behaviour instantiated on the degenerate
run's inputs. -/
theorem c2_witness :
    ([] : List ℚ) = [] ∧
      calculate_performance_metrics ([] : List ℚ) [10000] = none :=
  ⟨rfl, c2_empty_trades_no_metrics [] [10000] rfl⟩

/-- C5 (amended): for a non-empty trade log, `profit_factor` is
`|sum of positive P&L| / |sum of non-positive P&L|` whenever the loss
sum is non-zero, and it is `+∞` (modelled `none`) exactly when the sum
of losses is zero — regardless of whether any winning trade exists
(e.g. a log whose only trade has zero P&L gets `profit_factor = +∞`
with no winner). -/
theorem c5_profit_factor (pnls equity : List ℚ) (h : pnls ≠ []) :
    ((pnls.filter (fun p => p ≤ 0)).sum ≠ 0 →
      (calculate_performance_metrics pnls equity).map
          PerformanceMetrics.profit_factor =
        some (some (|(pnls.filter (fun p => 0 < p)).sum| /
          |(pnls.filter (fun p => p ≤ 0)).sum|))) ∧
    ((calculate_performance_metrics pnls equity).map
        PerformanceMetrics.profit_factor = some none ↔
      (pnls.filter (fun p => p ≤ 0)).sum = 0) := by
  have hne : pnls.isEmpty = false := by
    cases pnls with
    | nil => exact absurd rfl h
    | cons a l => rfl
  constructor
  · intro h0
    simp [calculate_performance_metrics, hne, h0, abs_div]
  · by_cases h0 : (pnls.filter (fun p => p ≤ 0)).sum = 0
    · simp [calculate_performance_metrics, hne, h0]
    · simp [calculate_performance_metrics, hne, h0]

/-- C5, counterexample to the claim as stated: the `dataZeroPnlDay` run
records exactly one trade, with zero P&L; its metrics have
`profit_factor = +∞` (`none`) while `winning_trades = 0`, refuting
"`+∞` exactly when the loss sum is zero AND at least one winning trade
exists". -/
theorem c5_counterexample :
    ((backtest_odte_breakout cfgB dataZeroPnlDay 0 0 10000).trades.map
        Trade.pnl = [0]) ∧
      (calculate_performance_metrics
          ((backtest_odte_breakout cfgB dataZeroPnlDay 0 0 10000).trades.map
            Trade.pnl)
          (backtest_odte_breakout cfgB dataZeroPnlDay 0 0 10000).equity).map
          (fun m => (m.profit_factor, m.winning_trades)) =
        some (none, 0) := by
  rw [eval_breakout_zeropnl]
  refine ⟨by simp [tZeroPnl], ?_⟩
  norm_num [calculate_performance_metrics, tZeroPnl, runningMax,
    runningMaxFrom, listMin]

/-- C5, witness: the amended profit-factor characterisation
instantiated on the log `[1, −2]`. -/
theorem c5_witness :
    ([(1 : ℚ), -2] ≠ []) ∧
      ((([(1 : ℚ), -2].filter (fun p => p ≤ 0)).sum ≠ 0 →
        (calculate_performance_metrics [(1 : ℚ), -2] [100, 99]).map
            PerformanceMetrics.profit_factor =
          some (some (|([(1 : ℚ), -2].filter (fun p => 0 < p)).sum| /
            |([(1 : ℚ), -2].filter (fun p => p ≤ 0)).sum|))) ∧
      ((calculate_performance_metrics [(1 : ℚ), -2] [100, 99]).map
          PerformanceMetrics.profit_factor = some none ↔
        ([(1 : ℚ), -2].filter (fun p => p ≤ 0)).sum = 0)) :=
  ⟨by simp, c5_profit_factor [(1 : ℚ), -2] [100, 99] (by simp)⟩

/-- C6: in the breakout simulator, at most one trade is recorded per
symbol per day, and the trade recorded on a day derives from the first
qualifying bar: if every bar before index `i` produces no signal and bar
`i` produces signal `sig`, the day's scan returns exactly the trade
built from bar `i` (with the bars after `i` as the exit-simulation
window); all later signals that day are ignored. -/
theorem c6_first_signal_wins :
    (∀ (cfg : BreakoutConfig) (date : ℕ) (ticker : String) (bars : List Bar),
      (processTickerDay cfg date ticker bars).toList.length ≤ 1) ∧
    (∀ (cfg : BreakoutConfig) (date : ℕ) (ticker : String) (ir : Bar)
        (bs : List Bar) (i : ℕ) (hi : i < bs.length) (sig : Signal),
      (∀ (j : ℕ) (hj : j < bs.length), j < i →
        breakoutSignal cfg ir (bs.get ⟨j, hj⟩) = none) →
      breakoutSignal cfg ir (bs.get ⟨i, hi⟩) = some sig →
      firstSignalTrade cfg date ticker ir bs =
        some (mkBreakoutTrade cfg date ticker sig (bs.get ⟨i, hi⟩)
          (bs.drop (i + 1)))) := by
  constructor
  · intro cfg date ticker bars
    cases hp : processTickerDay cfg date ticker bars <;> simp
  · intro cfg date ticker ir bs i hi sig hnone hsig
    exact firstSignalTrade_first cfg date ticker ir bs i hi sig hnone hsig

/-- C6, witness: on a day whose two post-opening bars BOTH satisfy the
breakout condition, the scan records exactly the trade of the first
qualifying bar, and the day's trade count is at most one. -/
theorem c6_witness :
    breakoutSignal cfgB irBar sigBar = some Signal.CALL ∧
      firstSignalTrade cfgB 0 "AAA" irBar [sigBar, sigBar] =
        some (mkBreakoutTrade cfgB 0 "AAA" Signal.CALL sigBar [sigBar]) ∧
      (processTickerDay cfgB 0 "AAA" [irBar, sigBar, sigBar]).toList.length
        ≤ 1 := by
  have hsig : breakoutSignal cfgB irBar sigBar = some Signal.CALL := by
    norm_num [breakoutSignal, cfgB, irBar, sigBar]
  refine ⟨hsig, ?_, c6_first_signal_wins.1 cfgB 0 "AAA" [irBar, sigBar, sigBar]⟩
  have h := c6_first_signal_wins.2 cfgB 0 "AAA" irBar [sigBar, sigBar] 0
    (by simp) Signal.CALL
    (fun j hj hj0 => absurd hj0 (Nat.not_lt_zero j))
    (by simpa using hsig)
  simpa using h

/-- C8 (amended): for every intraday bar after the first, a CALL signal
fires iff `close > opening-range high` and
`volume > opening-range volume × volume_multiplier` (the CALL test is
checked first, a PUT fires only when the CALL test failed), and on the
day's first signal the trade parameters are
`premium = close × 0.015` — the rate is a FIXED constant `0.015`, not a
configurable `premium_rate` —
`quantity = max(1, floor(risk_per_trade / premium))` (for non-negative
risk and positive close), `stop-loss = premium × sl_multiplier`, and
`take-profit = premium × tp_multiplier`. -/
theorem c8_signal_and_parameters :
    (∀ (cfg : BreakoutConfig) (ir b : Bar),
      (breakoutSignal cfg ir b = some Signal.CALL ↔
        b.close > ir.high ∧ b.volume > ir.volume * cfg.volume_multiplier) ∧
      (breakoutSignal cfg ir b = some Signal.PUT ↔
        ¬(b.close > ir.high ∧ b.volume > ir.volume * cfg.volume_multiplier) ∧
          (b.close < ir.low ∧
            b.volume > ir.volume * cfg.volume_multiplier))) ∧
    (∀ (cfg : BreakoutConfig) (date : ℕ) (ticker : String) (sig : Signal)
        (b : Bar) (rem : List Bar),
      0 < b.close → 0 ≤ cfg.risk_per_trade →
      (mkBreakoutTrade cfg date ticker sig b rem).premium =
          b.close * (15 / 1000) ∧
        (mkBreakoutTrade cfg date ticker sig b rem).quantity =
          max 1 ⌊cfg.risk_per_trade / (b.close * (15 / 1000))⌋ ∧
        tradeSL cfg (tradePremium b.close) =
          tradePremium b.close * cfg.sl_multiplier ∧
        tradeTP cfg (tradePremium b.close) =
          tradePremium b.close * cfg.tp_multiplier) := by
  constructor
  · intro cfg ir b
    constructor
    · simp only [breakoutSignal]
      split_ifs with h1 h2
      · exact iff_of_true rfl h1
      · exact iff_of_false (by simp) h1
      · exact iff_of_false (by simp) h1
    · simp only [breakoutSignal]
      split_ifs with h1 h2
      · exact iff_of_false (by simp) (fun hc => hc.1 h1)
      · exact iff_of_true rfl ⟨h1, h2⟩
      · exact iff_of_false (by simp) (fun hc => h2 hc.2)
  · intro cfg date ticker sig b rem hclose hrisk
    have hprem : (0 : ℚ) < b.close * (15 / 1000) :=
      mul_pos hclose (by norm_num)
    have hq : (0 : ℚ) ≤ cfg.risk_per_trade / (b.close * (15 / 1000)) :=
      div_nonneg hrisk hprem.le
    refine ⟨rfl, ?_, rfl, rfl⟩
    show tradeQty cfg (tradePremium b.close) = _
    simp [tradeQty, tradePremium, pyInt, hq]

/-- C8, counterexample to the claim as stated: the premium rate is not
configurable.  With a configured rate of `0.03` the spec's formula gives
`200 × 0.03 = 6`, but the engine always computes `200 × 0.015 = 3`. -/
theorem c8_counterexample :
    premiumPerSpec (3 / 100) sigBar.close = 6 ∧
      tradePremium sigBar.close = 3 ∧ (3 : ℚ) ≠ 6 := by
  norm_num [premiumPerSpec, tradePremium, sigBar]

/-- C8, witness: the signal characterisation and the trade parameters
instantiated on the fixture signal bar. -/
theorem c8_witness :
    (0 : ℚ) < sigBar.close ∧ (0 : ℚ) ≤ cfgB.risk_per_trade ∧
      ((mkBreakoutTrade cfgB 0 "AAA" Signal.CALL sigBar []).premium =
          sigBar.close * (15 / 1000) ∧
        (mkBreakoutTrade cfgB 0 "AAA" Signal.CALL sigBar []).quantity =
          max 1 ⌊cfgB.risk_per_trade / (sigBar.close * (15 / 1000))⌋ ∧
        tradeSL cfgB (tradePremium sigBar.close) =
          tradePremium sigBar.close * cfgB.sl_multiplier ∧
        tradeTP cfgB (tradePremium sigBar.close) =
          tradePremium sigBar.close * cfgB.tp_multiplier) := by
  refine ⟨by norm_num [sigBar], by norm_num [cfgB], ?_⟩
  exact c8_signal_and_parameters.2 cfgB 0 "AAA" Signal.CALL sigBar []
    (by norm_num [sigBar]) (by norm_num [cfgB])

/-- The open phase of day 1 on the `dataS` fixture opens exactly the
straddle `strad0`. -/
lemma eval_openPhase_day1 :
    openPhase cfgS earnS dataS 1 [] = [(("AAA", 2), strad0)] := by
  norm_num [openPhase, openPhaseTicker, tryOpenStraddle, insertActive, pyInt,
    List.foldl_cons, List.foldl_nil, List.filter_cons, List.filter_nil,
    cfgS, earnS, dataS, pxBar, strad0]

/-- On day 1 the just-opened straddle is not yet due, so the close phase
records nothing. -/
lemma eval_closePhase_day1 :
    closePhase cfgS dataS 1 [(("AAA", 2), strad0)] =
      ([(("AAA", 2), strad0)], []) := by
  norm_num [closePhase, cfgS, strad0, dataS, pxBar]

/-- C3 (amended): a symbol lacking price data on a day when an open
straddle is due for exit has the close DEFERRED — the straddle stays in
the active set and is closed on a later due day with data — but the
entry is NOT deferred: a straddle is opened only when
`earnings_date − day = entry_days_before` holds exactly and the symbol
has data that day, so a missing entry day drops the straddle entirely. -/
theorem c3_entry_exit_data_gaps :
    (∀ (cfg : StraddleConfig) (data : String → ℕ → List Bar) (d : ℕ)
        (active : ActiveSet) (k : String × ℕ) (s : Straddle),
      (k, s) ∈ active →
      cfg.exit_days_after ≤ (d : ℤ) - (s.earnings_date : ℤ) →
      data s.ticker d = [] →
      (k, s) ∈ (closePhase cfg data d active).1) ∧
    (∀ (cfg : StraddleConfig) (data : String → ℕ → List Bar) (d : ℕ)
        (active : ActiveSet) (k : String × ℕ) (s : Straddle) (b0 : Bar)
        (bs : List Bar),
      (k, s) ∈ active →
      cfg.exit_days_after ≤ (d : ℤ) - (s.earnings_date : ℤ) →
      data s.ticker d = b0 :: bs →
      closeStraddle cfg d b0.close s ∈ (closePhase cfg data d active).2) ∧
    (∀ (cfg : StraddleConfig) (earnings : String → List ℕ)
        (data : String → ℕ → List Bar) (d : ℕ) (active : ActiveSet)
        (ks : (String × ℕ) × Straddle),
      ks ∈ openPhase cfg earnings data d active →
      ks ∈ active ∨ (ks.2.entry_date = d ∧
        (ks.2.earnings_date : ℤ) - (d : ℤ) = cfg.entry_days_before ∧
        data ks.2.ticker d ≠ [])) := by
  refine ⟨?_, ?_, ?_⟩
  · intro cfg data d active k s hmem hdue hdata
    exact closePhase_kept cfg data d active k s hmem hdue hdata
  · intro cfg data d active k s b0 bs hmem hdue hdata
    exact closePhase_closes cfg data d active k s b0 bs hmem hdue hdata
  · intro cfg earnings data d active ks h
    exact openPhase_mem cfg earnings data d cfg.tickers active ks h

/-- C3, counterexample to the claim as stated: in the `dataSNoEntry` run
the intended entry day (day 1 = earnings day 2 − 1) has no data while
the two following in-range days do; the run records NO trade at all —
the entry is dropped, not deferred to the next day with data. -/
theorem c3_counterexample :
    dataSNoEntry "AAA" 1 = [] ∧ dataSNoEntry "AAA" 2 ≠ [] ∧
      dataSNoEntry "AAA" 3 ≠ [] ∧
      (backtest_earnings_straddle cfgS earnS dataSNoEntry 0 4 10000).trades
        = [] := by
  refine ⟨by norm_num [dataSNoEntry], by norm_num [dataSNoEntry],
    by norm_num [dataSNoEntry], ?_⟩
  rw [eval_straddle_noentry]

/-- C3, witness: the deferral and exact-entry facts instantiated on the
fixtures — a due straddle with no data stays active, a due straddle with
data closes, and the straddle opened on day 1 satisfies the exact-entry
characterisation. -/
theorem c3_witness :
    ((("AAA", 2), strad0) ∈ ([(("AAA", 2), strad0)] : ActiveSet) ∧
      cfgS.exit_days_after ≤ (3 : ℤ) - (strad0.earnings_date : ℤ) ∧
      dataLastBarDay strad0.ticker 3 = [] ∧
      (("AAA", 2), strad0) ∈
        (closePhase cfgS dataLastBarDay 3 [(("AAA", 2), strad0)]).1) ∧
    (dataS strad0.ticker 3 = [pxBar 202] ∧
      closeStraddle cfgS 3 (pxBar 202).close strad0 ∈
        (closePhase cfgS dataS 3 [(("AAA", 2), strad0)]).2) ∧
    ((("AAA", 2), strad0) ∈ openPhase cfgS earnS dataS 1 [] ∧
      (strad0.entry_date = 1 ∧
        (strad0.earnings_date : ℤ) - (1 : ℤ) = cfgS.entry_days_before ∧
        dataS strad0.ticker 1 ≠ [])) := by
  have hmem : (("AAA", 2), strad0) ∈ ([(("AAA", 2), strad0)] : ActiveSet) :=
    List.mem_cons_self _ _
  have hdue : cfgS.exit_days_after ≤ (3 : ℤ) - (strad0.earnings_date : ℤ) := by
    norm_num [cfgS, strad0]
  have hnodata : dataLastBarDay strad0.ticker 3 = [] := by
    norm_num [dataLastBarDay, strad0]
  have hdata3 : dataS strad0.ticker 3 = [pxBar 202] := by
    norm_num [dataS, strad0]
  have hopen : (("AAA", 2), strad0) ∈ openPhase cfgS earnS dataS 1 [] := by
    rw [eval_openPhase_day1]; exact List.mem_cons_self _ _
  refine ⟨⟨hmem, hdue, hnodata,
      c3_entry_exit_data_gaps.1 cfgS dataLastBarDay 3 _ _ _ hmem hdue
        hnodata⟩,
    ⟨hdata3, c3_entry_exit_data_gaps.2.1 cfgS dataS 3 _ _ _ (pxBar 202) []
      hmem hdue hdata3⟩, hopen, ?_⟩
  rcases c3_entry_exit_data_gaps.2.2 cfgS earnS dataS 1 []
      (("AAA", 2), strad0) hopen with h | h
  · simp at h
  · exact h

/-- C10: opening a straddle changes neither the capital nor the equity
curve nor the trade log (no entry cost is deducted at open): on a day
where no straddle closes, capital and the trade log are unchanged and
the equity curve only gets a flat snapshot, even if straddles were
opened; and over a whole run the capital change equals the summed P&L of
the recorded (closed) trades only — so a straddle still open when the
range ends has produced no trade, moved no equity, and cannot affect the
metrics computed from the trade log and equity curve. -/
theorem c10_open_straddle_frame :
    (∀ (cfg : StraddleConfig) (earnings : String → List ℕ)
        (data : String → ℕ → List Bar) (d : ℕ) (st : StraddleState),
      (closePhase cfg data d (openPhase cfg earnings data d st.active)).2
          = [] →
      (straddleDay cfg earnings data d st).capital = st.capital ∧
        (straddleDay cfg earnings data d st).trades = st.trades ∧
        (straddleDay cfg earnings data d st).equity =
          st.equity ++ [st.capital]) ∧
    (∀ (cfg : StraddleConfig) (earnings : String → List ℕ)
        (data : String → ℕ → List Bar) (startDate endDate : ℕ) (init : ℚ),
      (backtest_earnings_straddle cfg earnings data startDate endDate
          init).capital =
        init + ((backtest_earnings_straddle cfg earnings data startDate
          endDate init).trades.map StraddleTrade.pnl).sum) := by
  constructor
  · intro cfg earnings data d st h
    refine ⟨?_, ?_, ?_⟩ <;> simp [straddleDay, h]
  · intro cfg earnings data startDate endDate init
    exact (backtest_earnings_straddle_inv cfg earnings data startDate
      endDate init).2.2.2

/-- C10, witness: day 1 of the concrete straddle run opens `strad0` but
closes nothing, and capital, trade log and (flat) equity are
unchanged. -/
theorem c10_witness :
    (closePhase cfgS dataS 1 (openPhase cfgS earnS dataS 1 st0.active)).2
        = [] ∧
      (straddleDay cfgS earnS dataS 1 st0).capital = st0.capital ∧
      (straddleDay cfgS earnS dataS 1 st0).trades = st0.trades ∧
      (straddleDay cfgS earnS dataS 1 st0).equity =
        st0.equity ++ [st0.capital] := by
  have hclose : (closePhase cfgS dataS 1
      (openPhase cfgS earnS dataS 1 st0.active)).2 = [] := by
    rw [show st0.active = ([] : ActiveSet) from rfl, eval_openPhase_day1,
      eval_closePhase_day1]
  obtain ⟨h1, h2, h3⟩ :=
    c10_open_straddle_frame.1 cfgS earnS dataS 1 st0 hclose
  exact ⟨hclose, h1, h2, h3⟩

end BacktestEngine
